import Mathlib

/-!
Shallow embedding of the `gamelib` resilient network-resource access layer:
the MQTT client wrapper (`MqttClientWrapper` in the source) and the pooled
Redis service (`RedisService`).  Definitions translate the TypeScript source;
theorems check the specification's claims against them.
-/

set_option autoImplicit false

namespace Gamelib

/-! ## TopicMatcher: `MqttClientWrapper.matchTopic`

The source splits pattern and topic on the character `/` (JavaScript
`String.prototype.split('/')`) and walks the pattern segments left to right,
reading the topic segment at the same index (which may be absent).
-/

/-- JavaScript `s.split('/')` on the underlying character list:
always returns at least one (possibly empty) segment. -/
def jsSplitSlashChars : List Char → List (List Char)
  | [] => [[]]
  | c :: cs =>
    let rest := jsSplitSlashChars cs
    if c = '/' then [] :: rest
    else
      match rest with
      | [] => [[c]]
      | seg :: segs => (c :: seg) :: segs

/-- JavaScript `s.split('/')` producing strings. -/
def jsSplitSlash (s : String) : List String :=
  (jsSplitSlashChars s.data).map (fun cs => String.mk cs)

/-- The loop of `matchTopic`, walking pattern segments and topic segments in
lockstep (the source indexes both lists with the same `i`; one recursive step
here is one loop iteration at index `i`).
* `p === '#'` returns `i === patternSegments.length - 1`, i.e. no further
  pattern segments remain;
* `p === '+'` returns `false` when the topic segment is absent or empty
  (JavaScript `!t`), otherwise continues;
* otherwise `p !== t` (including an absent `t`) returns `false`;
* when the loop ends, the result is `patternSegments.length ===
  topicSegments.length`, i.e. no topic segments remain unconsumed. -/
def matchSegs : List String → List String → Bool
  | [], ts => ts.isEmpty
  | p :: ps, ts =>
    if p = "#" then ps.isEmpty
    else
      match ts with
      | [] => false
      | t :: ts' =>
        if p = "+" then
          if t = "" then false else matchSegs ps ts'
        else
          if p = t then matchSegs ps ts' else false

/-- `MqttClientWrapper.matchTopic(pattern, topic)`. -/
def matchTopic (pattern topic : String) : Bool :=
  matchSegs (jsSplitSlash pattern) (jsSplitSlash topic)

/-- Modelled from the spec's words (claim C1 / spec section 4.2), for
comparison with `matchSegs`: a multi-level wildcard segment matches iff it is
the last pattern segment (zero or more topic segments may remain); a
single-level wildcard matches exactly one existing non-empty topic segment;
any other pattern segment must equal the topic segment literally; if the
pattern is exhausted without a multi-level wildcard firing, the segment counts
must be exactly equal. -/
def specMatchSegs : List String → List String → Bool
  | [], ts => decide (ts = [])
  | p :: ps, ts =>
    if p = "#" then decide (ps = [])
    else
      match ts with
      | [] => false
      | t :: ts' =>
        if p = "+" then decide (t ≠ "") && specMatchSegs ps ts'
        else decide (p = t) && specMatchSegs ps ts'

theorem isEmpty_eq_decide (l : List String) : l.isEmpty = decide (l = []) := by
  cases l <;> simp

theorem matchSegs_eq_spec (ps : List String) : ∀ ts,
    matchSegs ps ts = specMatchSegs ps ts := by
  induction ps with
  | nil =>
    intro ts
    cases ts <;> simp [matchSegs, specMatchSegs]
  | cons p ps ih =>
    intro ts
    by_cases hp : p = "#"
    · cases ts <;> simp [matchSegs, specMatchSegs, hp, isEmpty_eq_decide]
    · cases ts with
      | nil => simp [matchSegs, specMatchSegs, hp]
      | cons t ts' =>
        by_cases hplus : p = "+"
        · by_cases ht : t = "" <;>
            simp [matchSegs, specMatchSegs, hp, hplus, ht, ih,
              isEmpty_eq_decide]
        · by_cases hlit : p = t <;>
            simp [matchSegs, specMatchSegs, hp, hplus, hlit, ih,
              isEmpty_eq_decide]

theorem matchSegs_hash_nonfinal (ts : List String) :
    matchSegs ["a", "#", "c"] ts = false := by
  cases ts with
  | nil => rfl
  | cons t1 ts1 => simp [matchSegs]

/-- C1: `matchTopic` agrees with the spec's wildcard semantics on every
pattern and topic (both split on the slash character): a multi-level wildcard
matches iff it is the last pattern segment, a single-level wildcard matches
exactly one existing non-empty topic segment, other segments match literally,
an exhausted pattern requires equal segment counts, and a non-final
multi-level wildcard matches nothing.  The spec's concrete examples are
included. -/
theorem c1_matchTopic_follows_spec (pattern topic : String) :
    matchTopic pattern topic =
      specMatchSegs (jsSplitSlash pattern) (jsSplitSlash topic) ∧
    matchTopic "a/#" "a" = true ∧
    matchTopic "a/#" "a/b" = true ∧
    matchTopic "a/#" "a/b/c" = true ∧
    matchTopic "a/+/c" "a/x/c" = true ∧
    matchTopic "a/+/c" "a/c" = false ∧
    matchTopic "a/+/c" "a/x/y/c" = false ∧
    matchTopic "sensors/+/temp" "sensors/1/temp" = true ∧
    matchTopic "sensors/+/temp" "sensors/1/2/temp" = false ∧
    (∀ t : String, matchTopic "a/#/c" t = false) := by
  refine ⟨matchSegs_eq_spec _ _, by decide, by decide, by decide,
    by decide, by decide, by decide, by decide, by decide, ?_⟩
  intro t
  have hsplit : jsSplitSlash "a/#/c" = ["a", "#", "c"] := by decide
  show matchSegs (jsSplitSlash "a/#/c") (jsSplitSlash t) = false
  rw [hsplit]
  exact matchSegs_hash_nonfinal _

/-! ## JavaScript `Map` on string keys

`eventHandlers` is a JavaScript `Map`; `Map.set` replaces the value at an
existing key (keeping its position) or appends a new entry, `Map.delete`
removes the entry, `Map.get` finds it.  Modelled as association lists. -/

/-- `Map.set(k, v)`. -/
def mapSet {α : Type} : List (String × α) → String → α → List (String × α)
  | [], k, v => [(k, v)]
  | (k', v') :: rest, k, v =>
    if k' = k then (k, v) :: rest else (k', v') :: mapSet rest k v

/-- `Map.delete(k)`. -/
def mapDelete {α : Type} : List (String × α) → String → List (String × α)
  | [], _ => []
  | (k', v') :: rest, k =>
    if k' = k then rest else (k', v') :: mapDelete rest k

/-- `Map.get(k)`. -/
def mapLookup {α : Type} : List (String × α) → String → Option α
  | [], _ => none
  | (k', v') :: rest, k => if k' = k then some v' else mapLookup rest k

theorem mapLookup_mapSet_self {α : Type} (m : List (String × α))
    (k : String) (v : α) : mapLookup (mapSet m k v) k = some v := by
  induction m with
  | nil => simp [mapSet, mapLookup]
  | cons e rest ih =>
    obtain ⟨k', v'⟩ := e
    by_cases h : k' = k <;> simp [mapSet, mapLookup, h, ih]

theorem mapLookup_eq_none_of_not_mem_keys {α : Type}
    (m : List (String × α)) (k : String) (h : k ∉ m.map Prod.fst) :
    mapLookup m k = none := by
  induction m with
  | nil => rfl
  | cons e rest ih =>
    obtain ⟨k', v'⟩ := e
    simp only [List.map_cons, List.mem_cons] at h
    push_neg at h
    have hne : ¬k' = k := fun hh => h.1 hh.symm
    simp [mapLookup, hne, ih h.2]

theorem mapLookup_mapDelete_self {α : Type} (m : List (String × α))
    (k : String) (hnodup : (m.map Prod.fst).Nodup) :
    mapLookup (mapDelete m k) k = none := by
  induction m with
  | nil => rfl
  | cons e rest ih =>
    obtain ⟨k', v'⟩ := e
    simp only [List.map_cons, List.nodup_cons] at hnodup
    by_cases h : k' = k
    · subst h
      simp only [mapDelete, if_pos rfl]
      exact mapLookup_eq_none_of_not_mem_keys rest k' hnodup.1
    · simp [mapDelete, mapLookup, h, ih hnodup.2]

/-! ## ConnectionManager: `MqttClientWrapper`

The wrapper's mutable fields are modelled as a record; each event handler or
method of the source becomes a state-transition function.  Timers are
modelled by the scheduled delay (`some delay` while pending); handlers are
identified by an abstract `Nat` id.  The underlying `mqtt` library client is
modelled by its `connected` flag. -/

/-- The underlying `mqtt.js` client handle (`this.client` when non-null). -/
structure MqttClientRef where
  connected : Bool
deriving DecidableEq

/-- The mutable fields of `MqttClientWrapper`. -/
structure MqttClientWrapper where
  client : Option MqttClientRef
  reconnectInterval : Nat
  maxReconnectInterval : Nat
  currentReconnectInterval : Nat
  connectionTimeout : Nat
  eventHandlers : List (String × Nat)
  reconnectTimeoutId : Option Nat
  connectionTimeoutId : Option Nat
  isExplicitlyDisconnected : Bool
deriving DecidableEq

/-- The constructor, with the option defaults
(`reconnectInterval ?? 1000`, `maxReconnectInterval ?? 30000`,
`connectionTimeout ?? 5000`) already applied to the three numbers. -/
def mkWrapper (reconnectInterval maxReconnectInterval connectionTimeout : Nat) :
    MqttClientWrapper :=
  { client := none
    reconnectInterval := reconnectInterval
    maxReconnectInterval := maxReconnectInterval
    currentReconnectInterval := reconnectInterval
    connectionTimeout := connectionTimeout
    eventHandlers := []
    reconnectTimeoutId := none
    connectionTimeoutId := none
    isExplicitlyDisconnected := false }

/-- `connect()`: ends any prior client, clears the explicit-disconnect flag,
creates a fresh (not yet connected) client and starts the connect-timeout
timer. -/
def connect (s : MqttClientWrapper) : MqttClientWrapper :=
  { s with
    isExplicitlyDisconnected := false
    client := some { connected := false }
    connectionTimeoutId := some s.connectionTimeout }

/-- The `once('connect', …)` handler: clears the connect-timeout timer and
resets `currentReconnectInterval` to `reconnectInterval`; the library marks
the client connected. -/
def onConnectSuccess (s : MqttClientWrapper) : MqttClientWrapper :=
  { s with
    connectionTimeoutId := none
    currentReconnectInterval := s.reconnectInterval
    client := s.client.map (fun _ => { connected := true }) }

/-- `reconnectWithBackoff()`: schedules the reconnect timer with delay
`currentReconnectInterval`. -/
def reconnectWithBackoff (s : MqttClientWrapper) : MqttClientWrapper :=
  { s with reconnectTimeoutId := some s.currentReconnectInterval }

/-- The `on('close', …)` handler: the library marks the client disconnected;
then, unless explicitly disconnected, `reconnectWithBackoff()` runs. -/
def onCloseEvent (s : MqttClientWrapper) : MqttClientWrapper :=
  let s1 := { s with
    client := s.client.map (fun c => { c with connected := false }) }
  if s1.isExplicitlyDisconnected then s1 else reconnectWithBackoff s1

/-- The body of the reconnect timer (`setTimeout` in
`reconnectWithBackoff`): runs `connect()` and then doubles
`currentReconnectInterval`, capped at `maxReconnectInterval`. -/
def reconnectTimerFire (s : MqttClientWrapper) : MqttClientWrapper :=
  let s1 := connect { s with reconnectTimeoutId := none }
  { s1 with
    currentReconnectInterval :=
      min (s1.currentReconnectInterval * 2) s1.maxReconnectInterval }

/-- `disconnect()`: sets the explicit flag, cancels both timers, clears the
handler registry and, when a client exists, ends it; the `end` callback fires
the `disconnected` notification once the transport confirms termination.
Returns the new state and the number of `disconnected` notifications
fired. -/
def disconnect (s : MqttClientWrapper) : MqttClientWrapper × Nat :=
  let s1 := { s with
    isExplicitlyDisconnected := true
    reconnectTimeoutId := none
    connectionTimeoutId := none
    eventHandlers := [] }
  match s1.client with
  | some _ => ({ s1 with client := none }, 1)
  | none => (s1, 0)

/-- `isConnected()`: `this.client?.connected ?? false`. -/
def isConnected (s : MqttClientWrapper) : Bool :=
  match s.client with
  | some c => c.connected
  | none => false

/-- `publish(topic, message)`: throws when `this.client` is null; otherwise
hands the message to the client with an acknowledgement callback that logs a
failure.  `ackErr` is the transport's acknowledgement outcome; the result is
`(threw, failureLogged)`. -/
def publish (s : MqttClientWrapper) (topic message : String)
    (ackErr : Bool) : Bool × Bool :=
  match s.client with
  | none => (true, false)
  | some _ => (false, ackErr)

/-- `subscribe(topic)`: same shape as `publish`. -/
def subscribe (s : MqttClientWrapper) (topic : String)
    (ackErr : Bool) : Bool × Bool :=
  match s.client with
  | none => (true, false)
  | some _ => (false, ackErr)

/-- `unsubscribe(topic)`: same shape as `publish`. -/
def unsubscribe (s : MqttClientWrapper) (topic : String)
    (ackErr : Bool) : Bool × Bool :=
  match s.client with
  | none => (true, false)
  | some _ => (false, ackErr)

/-- `registerHandler(topic, handler)`: `eventHandlers.set` then
`subscribe`.  Returns the new state and the `(threw, failureLogged)` outcome
of the subscribe call. -/
def registerHandler (s : MqttClientWrapper) (pattern : String)
    (handler : Nat) (ackErr : Bool) : MqttClientWrapper × Bool × Bool :=
  let s1 := { s with eventHandlers := mapSet s.eventHandlers pattern handler }
  (s1, subscribe s1 pattern ackErr)

/-- `unregisterHandler(topic)`: `eventHandlers.delete` then `unsubscribe`. -/
def unregisterHandler (s : MqttClientWrapper) (pattern : String)
    (ackErr : Bool) : MqttClientWrapper × Bool × Bool :=
  let s1 := { s with eventHandlers := mapDelete s.eventHandlers pattern }
  (s1, unsubscribe s1 pattern ackErr)

/-- The `on('message', …)` handler: iterates the registry entries, invoking
the handler of every pattern that matches the topic and recording whether any
matched; when none matched the event is reported with `console.warn`.
Returns the invoked entries in iteration order and the `matched` flag (the
warning fires exactly when the flag is `false`). -/
def onMessage (handlers : List (String × Nat)) (topic : String) :
    List (String × Nat) × Bool :=
  handlers.foldl
    (fun acc e =>
      if matchTopic e.1 topic then (acc.1 ++ [e], true) else acc)
    ([], false)

/-- `n` consecutive `close` events from the transport. -/
def iterCloseEvents : Nat → MqttClientWrapper → MqttClientWrapper
  | 0, s => s
  | n + 1, s => iterCloseEvents n (onCloseEvent s)

/-- One failure cycle: a `close` event (which schedules the reconnect timer)
followed by that timer firing.  Returns the scheduled wait and the state
after the timer body ran. -/
def failCycle (s : MqttClientWrapper) : Nat × MqttClientWrapper :=
  let s1 := onCloseEvent s
  (s1.reconnectTimeoutId.getD 0, reconnectTimerFire s1)

/-- The wait scheduled in the `(k+1)`-th consecutive failure cycle starting
from state `s`. -/
def nthWait (s : MqttClientWrapper) : Nat → Nat
  | 0 => (failCycle s).1
  | k + 1 => nthWait (failCycle s).2 k

theorem failCycle_wait (s : MqttClientWrapper)
    (h : s.isExplicitlyDisconnected = false) :
    (failCycle s).1 = s.currentReconnectInterval := by
  simp [failCycle, onCloseEvent, reconnectWithBackoff, h]

theorem failCycle_state (s : MqttClientWrapper)
    (h : s.isExplicitlyDisconnected = false) :
    (failCycle s).2.currentReconnectInterval =
        min (s.currentReconnectInterval * 2) s.maxReconnectInterval ∧
      (failCycle s).2.maxReconnectInterval = s.maxReconnectInterval ∧
      (failCycle s).2.isExplicitlyDisconnected = false ∧
      (failCycle s).2.reconnectInterval = s.reconnectInterval := by
  simp [failCycle, onCloseEvent, reconnectWithBackoff, reconnectTimerFire,
    connect, h]

theorem min_mul_cap (a m p : Nat) (hp : 0 < p) :
    min (min a m * p) m = min (a * p) m := by
  rcases Nat.le_total a m with h | h
  · rw [Nat.min_eq_left h]
  · have hm : m ≤ m * p := Nat.le_mul_of_pos_right m hp
    have ha : m ≤ a * p := le_trans h (Nat.le_mul_of_pos_right a hp)
    rw [Nat.min_eq_right h, Nat.min_eq_right hm, Nat.min_eq_right ha]

theorem nthWait_closed (k : Nat) : ∀ s : MqttClientWrapper,
    s.isExplicitlyDisconnected = false →
    s.currentReconnectInterval ≤ s.maxReconnectInterval →
    nthWait s k =
      min (s.currentReconnectInterval * 2 ^ k) s.maxReconnectInterval := by
  induction k with
  | zero =>
    intro s h1 h2
    simp [nthWait, failCycle_wait s h1, Nat.min_eq_left h2]
  | succ k ih =>
    intro s h1 h2
    obtain ⟨hcur, hmax, hexp, _⟩ := failCycle_state s h1
    have hle : (failCycle s).2.currentReconnectInterval ≤
        (failCycle s).2.maxReconnectInterval := by
      rw [hcur, hmax]; exact Nat.min_le_right _ _
    have step : nthWait s (k + 1) = nthWait (failCycle s).2 k := rfl
    rw [step, ih _ hexp hle, hcur, hmax,
      min_mul_cap _ _ _ (Nat.pos_pow_of_pos k (by decide)),
      Nat.mul_assoc, ← Nat.pow_succ']

/-- C2 (amended with the spec's backoff-state invariant `b ≤ m`): starting
from a freshly constructed wrapper, the wait scheduled before the `k`-th
consecutive reconnection attempt is `min (b * 2 ^ (k - 1)) m`; the
`connect`-success handler resets `currentReconnectInterval` to `b`, so from
any live state the next failure run schedules the same waits again. -/
theorem c2_backoff_waits (b m tmo : Nat) (hb : 0 < b) (hbm : b ≤ m)
    (k : Nat) (hk : 1 ≤ k) (s : MqttClientWrapper)
    (hs1 : s.isExplicitlyDisconnected = false)
    (hs2 : s.reconnectInterval = b) (hs3 : s.maxReconnectInterval = m) :
    nthWait (mkWrapper b m tmo) (k - 1) = min (b * 2 ^ (k - 1)) m ∧
    (onConnectSuccess s).currentReconnectInterval = b ∧
    nthWait (onConnectSuccess s) (k - 1) = min (b * 2 ^ (k - 1)) m := by
  refine ⟨?_, by simp [onConnectSuccess, hs2], ?_⟩
  · have := nthWait_closed (k - 1) (mkWrapper b m tmo) rfl hbm
    simpa [mkWrapper] using this
  · have h1 : (onConnectSuccess s).isExplicitlyDisconnected = false := by
      simpa [onConnectSuccess] using hs1
    have h2 : (onConnectSuccess s).currentReconnectInterval ≤
        (onConnectSuccess s).maxReconnectInterval := by
      simpa [onConnectSuccess, hs2, hs3] using hbm
    have := nthWait_closed (k - 1) (onConnectSuccess s) h1 h2
    simpa [onConnectSuccess, hs2, hs3] using this

/-- C2 witness: `b = 1`, `m = 4`, `k = 3`: the third wait is
`min (1 * 2 ^ 2) 4 = 4`. -/
theorem c2_backoff_waits_witness :
    nthWait (mkWrapper 1 4 5) 2 = min (1 * 2 ^ 2) 4 :=
  (c2_backoff_waits 1 4 5 (by decide) (by decide) 3 (by decide)
    (mkWrapper 1 4 5) (by decide) (by decide) (by decide)).1

/-- C2 counterexample to the claim as stated (which quantifies over every
base `b > 0` and cap `m`): with base `2` and cap `1` the wait before the
first reconnection attempt is `2`, not `min (2 * 2 ^ 0) 1 = 1` — neither the
constructor nor the success handler clamps `currentReconnectInterval` to the
cap. -/
theorem c2_backoff_counterexample :
    nthWait (mkWrapper 2 1 5) 0 ≠ min (2 * 2 ^ 0) 1 := by decide

theorem onMessage_foldl (topic : String) (hs : List (String × Nat)) :
    ∀ acc : List (String × Nat) × Bool,
    hs.foldl
        (fun acc e =>
          if matchTopic e.1 topic then (acc.1 ++ [e], true) else acc) acc =
      (acc.1 ++ hs.filter (fun e => matchTopic e.1 topic),
        acc.2 || hs.any (fun e => matchTopic e.1 topic)) := by
  induction hs with
  | nil => intro acc; simp
  | cons e hs ih =>
    intro acc
    by_cases h : matchTopic e.1 topic
    · simp [h, ih, List.filter_cons, List.any_cons]
    · simp [h, ih, List.filter_cons, List.any_cons]

theorem onMessage_eq (handlers : List (String × Nat)) (topic : String) :
    onMessage handlers topic =
      (handlers.filter (fun e => matchTopic e.1 topic),
        handlers.any (fun e => matchTopic e.1 topic)) := by
  simp [onMessage, onMessage_foldl]

/-- Number of occurrences of `a` in a list (the number of times the
dispatcher invoked the entry). -/
def occurrences {α : Type} [DecidableEq α] (a : α) : List α → Nat
  | [] => 0
  | b :: l => (if b = a then 1 else 0) + occurrences a l

theorem occurrences_eq_zero_of_not_mem {α : Type} [DecidableEq α] {a : α}
    {l : List α} (h : a ∉ l) : occurrences a l = 0 := by
  induction l with
  | nil => rfl
  | cons b l ih =>
    simp only [List.mem_cons] at h
    push_neg at h
    have hb : ¬b = a := fun hh => h.1 hh.symm
    simp [occurrences, hb, ih h.2]

theorem occurrences_filter_eq_one {α : Type} [DecidableEq α] {a : α}
    {l : List α} (p : α → Bool) (hnd : l.Nodup) (hmem : a ∈ l)
    (hp : p a = true) : occurrences a (l.filter p) = 1 := by
  induction l with
  | nil => simp at hmem
  | cons b l ih =>
    rw [List.nodup_cons] at hnd
    rcases List.mem_cons.mp hmem with hab | hal
    · subst hab
      have hnl : occurrences a (l.filter p) = 0 :=
        occurrences_eq_zero_of_not_mem
          (fun hin => hnd.1 (List.mem_of_mem_filter hin))
      simp [List.filter_cons, hp, occurrences, hnl]
    · have hba : ¬b = a := fun hh => hnd.1 (hh ▸ hal)
      by_cases hpb : p b = true <;>
        simp [List.filter_cons, hpb, occurrences, hba, ih hnd.2 hal]

theorem occurrences_filter_eq_zero {α : Type} [DecidableEq α] {a : α}
    {l : List α} (p : α → Bool) (hp : p a = false) :
    occurrences a (l.filter p) = 0 := by
  refine occurrences_eq_zero_of_not_mem (fun hin => ?_)
  have := List.of_mem_filter hin
  rw [hp] at this
  exact Bool.false_ne_true this

/-- C3: on an inbound message, every registered pattern that matches the
topic has its handler invoked exactly once (registry keys are unique, as in
a JavaScript `Map`), non-matching entries are not invoked, and the
`matched` flag — whose negation triggers the `console.warn` diagnostic — is
`false` exactly when no registered pattern matches.  The spec's concrete
example with patterns `x/+` and `x/y` on topic `x/y` is included. -/
theorem c3_dispatch_all_matches (handlers : List (String × Nat))
    (topic : String) (hnodup : (handlers.map Prod.fst).Nodup) :
    (∀ e ∈ handlers, matchTopic e.1 topic = true →
       occurrences e (onMessage handlers topic).1 = 1) ∧
    (∀ e ∈ handlers, matchTopic e.1 topic = false →
       occurrences e (onMessage handlers topic).1 = 0) ∧
    ((onMessage handlers topic).2 = false ↔
       ∀ e ∈ handlers, matchTopic e.1 topic = false) ∧
    onMessage [("x/+", 0), ("x/y", 1)] "x/y" =
      ([("x/+", 0), ("x/y", 1)], true) := by
  have hnd : handlers.Nodup := List.Nodup.of_map _ hnodup
  refine ⟨?_, ?_, ?_, by decide⟩
  · intro e he hm
    rw [onMessage_eq]
    exact occurrences_filter_eq_one _ hnd he hm
  · intro e he hm
    rw [onMessage_eq]
    exact occurrences_filter_eq_zero _ hm
  · rw [onMessage_eq]
    simp only
    constructor
    · intro h e he
      have := List.any_eq_false.mp h e he
      simpa using this
    · intro h
      refine List.any_eq_false.mpr ?_
      intro e he
      simp [h e he]

/-- C3 witness: both entries are invoked exactly once in the concrete
example. -/
theorem c3_dispatch_all_matches_witness :
    occurrences ("x/+", 0) (onMessage [("x/+", 0), ("x/y", 1)] "x/y").1 = 1 :=
  (c3_dispatch_all_matches [("x/+", 0), ("x/y", 1)] "x/y" (by decide)).1
    ("x/+", 0) (by decide) (by decide)

theorem disconnect_fields (s : MqttClientWrapper) :
    (disconnect s).1.client = none ∧
    (disconnect s).1.isExplicitlyDisconnected = true ∧
    (disconnect s).1.reconnectTimeoutId = none ∧
    (disconnect s).1.connectionTimeoutId = none ∧
    (disconnect s).1.eventHandlers = [] := by
  cases hc : s.client <;> simp [disconnect, hc]

theorem disconnect_fixed (t : MqttClientWrapper)
    (h1 : t.isExplicitlyDisconnected = true)
    (h2 : t.reconnectTimeoutId = none) (h3 : t.connectionTimeoutId = none)
    (h4 : t.eventHandlers = []) (h5 : t.client = none) :
    disconnect t = (t, 0) := by
  obtain ⟨cl, ri, mri, cri, ct, eh, rt, cti, ied⟩ := t
  simp only at h1 h2 h3 h4 h5
  subst h1 h2 h3 h4 h5
  rfl

theorem onCloseEvent_fixed (t : MqttClientWrapper)
    (h1 : t.isExplicitlyDisconnected = true) (h5 : t.client = none) :
    onCloseEvent t = t := by
  obtain ⟨cl, ri, mri, cri, ct, eh, rt, cti, ied⟩ := t
  simp only at h1 h5
  subst h1 h5
  rfl

/-- C7: after `disconnect()` the explicit flag is set, both timers are
cancelled, a second `disconnect()` returns the same state and fires zero
further `disconnected` notifications, and no sequence of subsequent `close`
events ever schedules a reconnect timer. -/
theorem c7_disconnect_twice_safe (s : MqttClientWrapper) :
    (disconnect s).1.isExplicitlyDisconnected = true ∧
    (disconnect s).1.reconnectTimeoutId = none ∧
    (disconnect s).1.connectionTimeoutId = none ∧
    disconnect (disconnect s).1 = ((disconnect s).1, 0) ∧
    (∀ n : Nat,
      (iterCloseEvents n (disconnect s).1).reconnectTimeoutId = none) := by
  obtain ⟨h5, h1, h2, h3, h4⟩ := disconnect_fields s
  refine ⟨h1, h2, h3, disconnect_fixed _ h1 h2 h3 h4 h5, ?_⟩
  have hfix : ∀ n : Nat, iterCloseEvents n (disconnect s).1 =
      (disconnect s).1 := by
    intro n
    induction n with
    | zero => rfl
    | succ n ih =>
      show iterCloseEvents n (onCloseEvent (disconnect s).1) =
        (disconnect s).1
      rw [onCloseEvent_fixed _ h1 h5, ih]
  intro n
  rw [hfix n, h2]

/-- C8: with a live transport, `registerHandler` returns normally with the
registry containing the new entry, and `unregisterHandler` returns normally
with the entry removed; in both, a failure of the transport
subscribe/unsubscribe acknowledgement is logged, never raised. -/
theorem c8_registerHandler_best_effort (s : MqttClientWrapper)
    (pattern : String) (handler : Nat) (ackErr ackErr' : Bool)
    (hclient : s.client.isSome = true)
    (hnodup : (s.eventHandlers.map Prod.fst).Nodup) :
    (registerHandler s pattern handler ackErr).2.1 = false ∧
    mapLookup (registerHandler s pattern handler ackErr).1.eventHandlers
      pattern = some handler ∧
    (registerHandler s pattern handler ackErr).2.2 = ackErr ∧
    (unregisterHandler s pattern ackErr').2.1 = false ∧
    mapLookup (unregisterHandler s pattern ackErr').1.eventHandlers
      pattern = none ∧
    (unregisterHandler s pattern ackErr').2.2 = ackErr' := by
  cases hc : s.client with
  | none => rw [hc] at hclient; simp at hclient
  | some c =>
    refine ⟨?_, ?_, ?_, ?_, ?_, ?_⟩ <;>
      simp [registerHandler, unregisterHandler, subscribe, unsubscribe, hc,
        mapLookup_mapSet_self, mapLookup_mapDelete_self _ _ hnodup]

/-- C8 witness: registering on a freshly connected wrapper. -/
theorem c8_registerHandler_best_effort_witness :
    mapLookup (registerHandler (connect (mkWrapper 1000 30000 5000))
      "x" 7 true).1.eventHandlers "x" = some 7 :=
  (c8_registerHandler_best_effort (connect (mkWrapper 1000 30000 5000))
    "x" 7 true false (by decide) (by decide)).2.1

/-- C10: `publish`, `subscribe` and `unsubscribe` raise the not-connected
error exactly when the internal client reference is null; when a client
object exists but the connection is down (`isConnected()` false, e.g. after
a broker-initiated close), `publish` returns normally. -/
theorem c10_publish_throws_iff_no_client (s : MqttClientWrapper)
    (topic message : String) (ackErr : Bool) :
    ((publish s topic message ackErr).1 = true ↔ s.client = none) ∧
    ((subscribe s topic ackErr).1 = true ↔ s.client = none) ∧
    ((unsubscribe s topic ackErr).1 = true ↔ s.client = none) ∧
    (s.client.isSome = true → isConnected s = false →
      (publish s topic message ackErr).1 = false) := by
  cases hc : s.client <;>
    simp [publish, subscribe, unsubscribe, isConnected, hc]

/-- C10 witness: after a broker-initiated close on a freshly connected
wrapper the client object still exists, `isConnected()` is false, and
`publish` does not throw. -/
theorem c10_publish_throws_iff_no_client_witness :
    (publish (onCloseEvent (connect (mkWrapper 1000 30000 5000)))
      "a/b" "msg" false).1 = false :=
  (c10_publish_throws_iff_no_client
    (onCloseEvent (connect (mkWrapper 1000 30000 5000)))
    "a/b" "msg" false).2.2.2 (by decide) (by decide)

/-! ## ResourcePool: `RedisService.withClient` over `generic-pool`

A pool is a list of idle clients plus the borrowed ones; `acquire` takes the
next idle client, `release` puts it back. -/

/-- The pool's bookkeeping: idle and borrowed client ids. -/
structure PoolState where
  available : List Nat
  borrowed : List Nat
deriving DecidableEq

/-- `pool.acquire()`: hands out the next idle client (no idle client is
modelled as `none`; the real pool would wait or grow). -/
def poolAcquire (p : PoolState) : Option (Nat × PoolState) :=
  match p.available with
  | [] => none
  | c :: rest => some (c, { available := rest, borrowed := c :: p.borrowed })

/-- `pool.release(client)`: returns the client to the idle set. -/
def poolRelease (p : PoolState) (c : Nat) : PoolState :=
  { available := c :: p.available, borrowed := p.borrowed.erase c }

/-- Whether the action's outcome is the thrown branch. -/
def exceptIsError {E T : Type} : Except E T → Bool
  | Except.ok _ => false
  | Except.error _ => true

/-- `RedisService.withClient(action)`: acquire, run the action, on exception
log and rethrow, and in all cases release the client (`finally`).  Returns
the propagated outcome, whether the failure was logged, and the final pool
state. -/
def withClient {T : Type} (p : PoolState) (action : Nat → Except String T) :
    Option (Except String T × Bool × PoolState) :=
  match poolAcquire p with
  | none => none
  | some (c, p1) =>
    match action c with
    | Except.ok r => some (Except.ok r, false, poolRelease p1 c)
    | Except.error e => some (Except.error e, true, poolRelease p1 c)

/-- C6: whenever a client is acquired, `withClient` returns the action's own
outcome (a normal result is returned, an error is propagated and logged) and
the final pool state equals the initial one: the acquired client is back in
the idle set on every path, never leaked. -/
theorem c6_withClient_always_releases {T : Type} (c : Nat)
    (rest borrowed : List Nat) (action : Nat → Except String T) :
    withClient ⟨c :: rest, borrowed⟩ action =
      some (action c, exceptIsError (action c),
        (⟨c :: rest, borrowed⟩ : PoolState)) := by
  cases h : action c <;>
    simp [withClient, poolAcquire, poolRelease, exceptIsError, h]

/-! ## RedisService key-value operations

The store visible to one client is an association list from keys to stored
entries (the serialized payload and its optional expiry).  `JSON.stringify`
and `JSON.parse` are abstract parameters: `parse` returns `none` exactly
when `JSON.parse` would throw. -/

/-- A value stored in Redis: the serialized payload and the expiry set with
it (`none`: persists indefinitely). -/
structure StoredEntry where
  payload : String
  expiry : Option Nat
deriving DecidableEq

/-- JavaScript truthiness of the optional numeric `ttlInSeconds` argument:
`undefined` and `0` are falsy. -/
def jsTruthyNat : Option Nat → Bool
  | none => false
  | some n => decide (n ≠ 0)

/-- The entry written by `RedisService.set(key, value, ttlInSeconds)`:
`JSON.stringify(value)` as payload; `if (ttlInSeconds)` stores with
`'EX', ttlInSeconds`, otherwise a plain `SET` without expiry. -/
def redisSetEntry (json : String) (ttl : Option Nat) : StoredEntry :=
  if jsTruthyNat ttl then { payload := json, expiry := ttl }
  else { payload := json, expiry := none }

/-- `RedisService.set` with the caller's value and serializer. -/
def redisSet {V : Type} (stringify : V → String) (value : V)
    (ttl : Option Nat) : StoredEntry :=
  redisSetEntry (stringify value) ttl

/-- `client.exists(key)` as a boolean. -/
def redisExists (store : List (String × StoredEntry)) (key : String) : Bool :=
  (mapLookup store key).isSome

/-- `RedisService.update(key, value, ttlInSeconds)`: checks existence first
and throws `Key does not exist` when absent, otherwise performs
`this.set(key, value, ttlInSeconds)`.  Returns the resulting store and
whether it threw. -/
def redisUpdate {V : Type} (stringify : V → String)
    (store : List (String × StoredEntry)) (key : String) (value : V)
    (ttl : Option Nat) : List (String × StoredEntry) × Bool :=
  if redisExists store key then
    (mapSet store key (redisSet stringify value ttl), false)
  else
    (store, true)

/-- `RedisService.get(key)` applied to the raw `client.get(key)` result
(`none` when the key is absent).  `if (!val) return null` also catches the
empty string; otherwise `JSON.parse` runs and its failure is logged and
degraded to null.  Returns the value handed to the caller and whether a
parse failure was logged. -/
def redisGet {V : Type} (parse : String → Option V)
    (stored : Option String) : Option V × Bool :=
  match stored with
  | none => (none, false)
  | some val =>
    if val = "" then (none, false)
    else
      match parse val with
      | some v => (some v, false)
      | none => (none, true)

/-- C4 (amended: the empty payload is treated like absence, without a log):
a stored payload that is non-empty and fails to deserialize is logged and
degraded to null; the empty payload and an absent key return null without a
parse-failure log; no case propagates an exception. -/
theorem c4_get_null_on_bad_json {V : Type} (parse : String → Option V)
    (s : String) (hs : s ≠ "") (hp : parse s = none) :
    redisGet parse (some s) = (none, true) ∧
    redisGet parse (some "") = (none, false) ∧
    redisGet parse none = (none, false) := by
  refine ⟨?_, rfl, rfl⟩
  simp [redisGet, hs, hp]

/-- C4 witness: a non-empty unparsable payload is logged and returns null. -/
theorem c4_get_null_on_bad_json_witness :
    redisGet (fun _ : String => (none : Option Unit)) (some "oops") =
      (none, true) :=
  (c4_get_null_on_bad_json (fun _ : String => (none : Option Unit)) "oops"
    (by decide) rfl).1

/-- C4 counterexample to the claim as stated: the empty string is a stored
payload that exists and is not valid JSON (`JSON.parse` rejects it, here
`parse "" = none`), yet `get` returns null with no deserialization-failure
log, because `if (!val)` is true for the empty string. -/
theorem c4_get_counterexample :
    (fun _ : String => (none : Option Unit)) "" = none ∧
    redisGet (fun _ : String => (none : Option Unit)) (some "") =
      (none, false) ∧
    redisGet (fun _ : String => (none : Option Unit)) (some "") ≠
      (none, true) := by
  refine ⟨rfl, rfl, by decide⟩

/-- C5: `update` on a key absent at the existence check throws the
not-found error and leaves the store unchanged — in particular the key is
still absent afterwards; the check runs before any write. -/
theorem c5_update_missing_key {V : Type} (stringify : V → String)
    (store : List (String × StoredEntry)) (key : String) (value : V)
    (ttl : Option Nat) (h : mapLookup store key = none) :
    redisUpdate stringify store key value ttl = (store, true) ∧
    mapLookup (redisUpdate stringify store key value ttl).1 key = none := by
  have hex : redisExists store key = false := by simp [redisExists, h]
  constructor <;> simp [redisUpdate, hex, h]

/-- C5 witness: updating a missing key on a one-entry store. -/
theorem c5_update_missing_key_witness :
    redisUpdate (fun s : String => s)
      [("a", { payload := "1", expiry := none })] "b" "v" none =
      ([("a", { payload := "1", expiry := none })], true) :=
  (c5_update_missing_key (fun s : String => s)
    [("a", { payload := "1", expiry := none })] "b" "v" none (by decide)).1

/-- C9 (amended: a supplied ttl of `0` is JavaScript-falsy, so it stores
without expiry like an absent ttl): a positive ttl stores the serialized
payload with that expiry; no ttl stores it without expiry. -/
theorem c9_set_ttl (V : Type) (stringify : V → String) (value : V)
    (n : Nat) (hn : 0 < n) :
    redisSet stringify value (some n) =
      { payload := stringify value, expiry := some n } ∧
    redisSet stringify value none =
      { payload := stringify value, expiry := none } ∧
    redisSet stringify value (some 0) =
      { payload := stringify value, expiry := none } := by
  have ht : jsTruthyNat (some n) = true := by
    simp [jsTruthyNat]
    omega
  exact ⟨by simp [redisSet, redisSetEntry, ht],
    by simp [redisSet, redisSetEntry, jsTruthyNat],
    by simp [redisSet, redisSetEntry, jsTruthyNat]⟩

/-- C9 witness: ttl 3 stores with expiry 3; no ttl persists. -/
theorem c9_set_ttl_witness :
    redisSet (fun s : String => s) "v" (some 3) =
      { payload := "v", expiry := some 3 } :=
  (c9_set_ttl String (fun s : String => s) "v" 3 (by decide)).1

/-- C9 counterexample to the claim as stated (which includes ttl `0`):
`set` with ttl `0` stores without expiry — `if (ttlInSeconds)` is false for
`0` — rather than with an expiry of `0` seconds. -/
theorem c9_set_ttl_counterexample :
    (redisSet (fun s : String => s) "v" (some 0)).expiry = none ∧
    (redisSet (fun s : String => s) "v" (some 0)).expiry ≠ some 0 := by
  exact ⟨rfl, by decide⟩

end Gamelib
